import Mathlib

set_option autoImplicit false

/-!
Shallow embedding of `convert_to_tooth_labels.py` (tooth_numbering repository).

Python floats are modelled as exact rationals (`ℚ`), Python ints as `ℤ`/`ℕ`,
Python strings as `String`, dictionaries as association lists with
insertion-order/overwrite semantics (`dictInsert`), and JSON documents as the
inductive `JVal`.  Filesystem reads (opening an image file to obtain its pixel
size) are modelled by an oracle parameter.  Console logging is modelled by the
`SkipReason` carried in the per-image result.
-/

namespace ToothLabels

/-- A bounding box `xmin, ymin, xmax, ymax`, absolute pixel coordinates
(Python floats, modelled as rationals). -/
structure Box where
  xmin : ℚ
  ymin : ℚ
  xmax : ℚ
  ymax : ℚ
deriving DecidableEq

/-- Python `int()` on a float: truncation toward zero. -/
def pyInt (q : ℚ) : ℤ := if 0 ≤ q then ⌊q⌋ else ⌈q⌉

/-- Model of `to_yolo` (source lines 202-208): converts an absolute pixel box to
center-based unit-normalized coordinates
`(x_center/W, y_center/H, width/W, height/H)`. -/
def to_yolo (b : Box) (W H : ℤ) : ℚ × ℚ × ℚ × ℚ :=
  let x_c : ℚ := (b.xmin + b.xmax) / 2
  let y_c : ℚ := (b.ymin + b.ymax) / 2
  let w : ℚ := b.xmax - b.xmin
  let h : ℚ := b.ymax - b.ymin
  (x_c / (W : ℚ), y_c / (H : ℚ), w / (W : ℚ), h / (H : ℚ))

/-- Fixed-point formatting `f"{v:.{d}f}"` modelled as rounding the exact
rational to `d` decimal places. -/
def roundDec (d : ℕ) (q : ℚ) : ℚ := ((round (q * 10 ^ d) : ℤ) : ℚ) / 10 ^ d

/-- A parsed JSON value (the shape `json.loads` can produce). -/
inductive JVal where
  | null : JVal
  | bool : Bool → JVal
  | num : ℚ → JVal
  | str : String → JVal
  | arr : List JVal → JVal
  | obj : List (String × JVal) → JVal

/-- First binding of a key in an association list (Python dict keys are
unique, so this is ordinary dict lookup). -/
def assocFind {α : Type} : List (String × α) → String → Option α
  | [], _ => none
  | (k', v) :: rest, k => if k' = k then some v else assocFind rest k

/-- Python `isinstance(x, (int, float))` viewed as a numeric value; a Python
`bool` is an `int` (`True == 1`, `False == 0`). -/
def numLike : JVal → Option ℚ
  | .num q => some q
  | .bool b => some (if b then 1 else 0)
  | _ => none

/-- One element of a candidate box list: a 4-element sequence of numerics
(`looks_like_box_list` element check, source lines 132-138). -/
def asBox : JVal → Option Box
  | .arr [a, b, c, d] =>
    match numLike a, numLike b, numLike c, numLike d with
    | some x1, some y1, some x2, some y2 => some ⟨x1, y1, x2, y2⟩
    | _, _, _, _ => none
  | _ => none

/-- Model of `looks_like_box_list` (source lines 126-139) combined with the float
conversion of `recursive_find_boxes` (line 145): a non-empty sequence whose
elements are all 4-element numeric sequences. -/
def boxList : JVal → Option (List Box)
  | .arr l => if l.isEmpty then none else l.mapM asBox
  | _ => none

/-- The fixed key-priority list of `recursive_find_boxes` (source line 148). -/
def priorityKeys : List String := ["data", "annotations", "boxes", "bboxes", "bounding_boxes", "bbox"]

/-- First non-`none` result in a list of results. -/
def firstHit : List (Option (List Box)) → Option (List Box)
  | [] => none
  | some bs :: _ => some bs
  | none :: rest => firstHit rest

/-- The priority-key scan of `recursive_find_boxes` (source lines 148-152):
for each key in order, if the mapping has the key and the recursive search on
its value succeeds, return that result, otherwise keep scanning. -/
def firstPriorityHit (rs : List (String × Option (List Box))) : List String → Option (List Box)
  | [] => none
  | k :: ks =>
    match assocFind rs k with
    | some (some bs) => some bs
    | _ => firstPriorityHit rs ks

mutual
/-- Model of `recursive_find_boxes` (source lines 142-163).  The Python function
evaluates recursive calls lazily with early return; since the function is
pure, the model computes the recursive result of every mapping value eagerly
(`rfbFields`) and then replays the priority-key scan followed by the in-order
value scan on those results, which yields the same answer.  A found result is
always a non-empty list (`looks_like_box_list` demands non-emptiness), so
Python's truthiness test `if res:` coincides with `Option.isSome`. -/
def rfbVal : JVal → Option (List Box)
  | .obj kvs =>
    let rs := rfbFields kvs
    match firstPriorityHit rs priorityKeys with
    | some bs => some bs
    | none => firstHit (rs.map Prod.snd)
  | .arr l =>
    match boxList (.arr l) with
    | some bs => some bs
    | none => rfbElems l
  | _ => none

/-- Recursive search result for each value of a JSON mapping, in order. -/
def rfbFields : List (String × JVal) → List (String × Option (List Box))
  | [] => []
  | (k, v) :: rest => (k, rfbVal v) :: rfbFields rest

/-- In-order scan of a JSON sequence, returning the first successful
recursive search (source lines 158-162). -/
def rfbElems : List JVal → Option (List Box)
  | [] => none
  | v :: rest =>
    match rfbVal v with
    | some bs => some bs
    | none => rfbElems rest
end

/-- Dict key lookup on a JSON value (`k in j` followed by `j[k]`); on a
non-mapping the model yields `none` (the orchestrator only ever receives
mapping-shaped documents here; Python `'data' in j` on other shapes is an
unexercised corner). -/
def jLookup : JVal → String → Option JVal
  | .obj kvs, k => assocFind kvs k
  | _, _ => none

/-- Box extraction as performed by `process_split` (source lines 232-237):
root the search at `j['data']` when that key exists and its search succeeds,
otherwise search the whole document. -/
def boxesOf (j : JVal) : Option (List Box) :=
  match jLookup j "data" with
  | some v =>
    match rfbVal v with
    | some bs => some bs
    | none => rfbVal j
  | none => rfbVal j

/-- Python `int()` applied to a JSON value in the nested width/height branch
(source line 190 has no `isinstance` guard): floats truncate toward zero,
bools are ints, and digit strings parse (`int("100")`).  On any other value
Python would raise — that unexercised crash is modelled as `none`. -/
def pyIntVal : JVal → Option ℤ
  | .num q => some (pyInt q)
  | .bool b => some (if b then 1 else 0)
  | .str s => s.trim.toInt?
  | _ => none

/-- Nested size probe (source lines 186-190): `j[k]` must be a mapping with
both `width` and `height` keys; their values go through `int()`. -/
def sizeFromSub (j : JVal) (k : String) : Option (ℤ × ℤ) :=
  match jLookup j k with
  | some (.obj sub) =>
    match assocFind sub "width", assocFind sub "height" with
    | some wv, some hv =>
      match pyIntVal wv, pyIntVal hv with
      | some w, some h => some (w, h)
      | _, _ => none
    | _, _ => none
  | _ => none

/-- Model of `get_image_size_from_json_or_file` (source lines 180-199).  Preference 1:
top-level numeric `width`/`height` fields (both present and
`isinstance (int, float)`).  Preference 2: a nested `image` or `meta`
sub-mapping with both fields.  Preference 3: open the image file — the
filesystem is modelled by the oracle `fileSize` (the dimensions the images
directory would yield for this id, `none` when no file is found or it cannot
be decoded). -/
def getImageSize (j : JVal) (fileSize : Option (ℤ × ℤ)) : Option (ℤ × ℤ) :=
  match jLookup j "width", jLookup j "height" with
  | some wv, some hv =>
    match numLike wv, numLike hv with
    | some w, some h => some (pyInt w, pyInt h)
    | _, _ =>
      match sizeFromSub j "image" with
      | some s => some s
      | none =>
        match sizeFromSub j "meta" with
        | some s => some s
        | none => fileSize
  | _, _ =>
    match sizeFromSub j "image" with
    | some s => some s
    | none =>
      match sizeFromSub j "meta" with
      | some s => some s
      | none => fileSize

/-- A separator for `re.split(r'[;,\s]+', s)` (source lines 67, 119). -/
def isSepChar (c : Char) : Bool := c = ';' || c = ',' || c.isWhitespace

/-- Token extraction from an FDI cell: split on runs of `;`, `,`, or
whitespace and drop empty fragments — `re.split` on a character class plus
the `[f for f in fdi_list if f]` filter. -/
def splitTokens (s : String) : List String :=
  (s.split isSepChar).filter (fun t => t ≠ "")

/-- Python dict assignment `m[k] = v`: overwrite in place when the key
exists (keeping its position), otherwise append (insertion order). -/
def dictInsert {α : Type} (m : List (String × α)) (k : String) (v : α) : List (String × α) :=
  if m.any (fun p => p.1 = k) then m.map (fun p => if p.1 = k then (k, v) else p)
  else m ++ [(k, v)]

/-- The fixed deny-list of identifiers excluded from delimited-text metadata
(source line 71). -/
def excludeIds : List String := ["863", "777", "762", "75"]

/-- The delimited-text branch of `parse_excel` (source lines 50-73): skip the
header line, strip each line, skip blanks, split on tabs, require at least 4
fields, key the mapping on the stripped first field, tokenize the stripped
fourth field, and finally drop entries whose key is in the deny-list. -/
def parse_txt (lines : List String) : List (String × List String) :=
  let mapping := (lines.drop 1).foldl (fun m ln =>
    let line := ln.trim
    if line = "" then m
    else
      let parts := line.splitOn "\t"
      if parts.length < 4 then m
      else
        let img_id := (parts.getD 0 "").trim
        let fdi_str := (parts.getD 3 "").trim
        if fdi_str = "" then dictInsert m img_id []
        else dictInsert m img_id (splitTokens fdi_str)) []
  mapping.filter (fun p => !(excludeIds.contains p.1))

/-- A spreadsheet cell as `openpyxl` yields it with `values_only=True`
(`None`, text, int, or float; bool/datetime cells are unexercised). -/
inductive Cell where
  | cNone : Cell
  | cStr : String → Cell
  | cInt : ℤ → Cell
  | cFloat : ℚ → Cell

/-- Identifier-cell handling of the spreadsheet branch (source lines
107-113): a `None` cell skips the row; an `int`/`float` cell (floats modelled
as rationals, which have no NaN) becomes `str(int(raw_id))`; any other cell
becomes `str(raw_id)`, verbatim for text. -/
def excelRowId : Cell → Option String
  | .cNone => none
  | .cInt n => some (toString n)
  | .cFloat q => some (toString (pyInt q))
  | .cStr s => some s

/-- Python `str()` of an FDI cell (source line 118).  Text and ints render as in
Python; a float cell renders here as a rational, which differs from Python's
float repr — no claim exercises float-valued token cells. -/
def cellStr : Cell → String
  | .cNone => "None"
  | .cStr s => s
  | .cInt n => toString n
  | .cFloat q => toString q

/-- The row loop of the spreadsheet branch of `parse_excel` (source lines
105-123), with the identifier and FDI column indices already resolved by the
header scan (lines 86-103): a missing identifier cell skips the row, a
missing FDI cell yields an explicit empty token list, otherwise the cell text
is stripped and tokenized. -/
def parseExcelRows (rows : List (List Cell)) (idCol fdiCol : ℕ) : List (String × List String) :=
  rows.foldl (fun m row =>
    match excelRowId (row.getD idCol Cell.cNone) with
    | none => m
    | some img_id =>
      match row.getD fdiCol Cell.cNone with
      | Cell.cNone => dictInsert m img_id []
      | rfdi => dictInsert m img_id (splitTokens (cellStr rfdi).trim)) []

/-- Python `x.isdigit()` on a token (ASCII digits; `String.toNat?` succeeds exactly
on non-empty all-digit strings, matching `int(x)` on such tokens). -/
def isNumTok (s : String) : Bool := s.toNat?.isSome

/-- Python `int(x)` for a digit token (0 on non-digit tokens, never used there). -/
def numVal (s : String) : ℕ := s.toNat?.getD 0

/-- The sort comparator induced by the key
`lambda x: (0, int(x)) if x.isdigit() else (1, x)` (source line 301):
numeric tokens compare by integer value and precede every non-numeric token;
non-numeric tokens compare lexically. -/
def tokLEb (a b : String) : Bool :=
  if isNumTok a then
    (if isNumTok b then decide (numVal a ≤ numVal b) else true)
  else
    (if isNumTok b then false else decide (a ≤ b))

/-- The comparator as a proposition, for use with `List.insertionSort`. -/
def tokLE (a b : String) : Prop := tokLEb a b = true

instance : DecidableRel tokLE := fun a b => inferInstanceAs (Decidable (tokLEb a b = true))

instance : IsTotal String tokLE where
  total a b := by
    unfold tokLE tokLEb
    by_cases ha : isNumTok a <;> by_cases hb : isNumTok b <;> simp [ha, hb]
    · exact Nat.le_total _ _
    · exact le_total a.data b.data

instance : IsTrans String tokLE where
  trans a b c hab hbc := by
    unfold tokLE tokLEb at hab hbc ⊢
    by_cases ha : isNumTok a <;> by_cases hb : isNumTok b <;> by_cases hc : isNumTok c <;>
      simp [ha, hb, hc] at hab hbc ⊢
    · exact le_trans hab hbc
    · exact le_trans hab hbc

/-- Model of `sorted(s, key=lambda x: (0, int(x)) if x.isdigit() else (1, x))`
(source line 301).  Python's sort and insertion sort are both stable, and
stability plus an identical total preorder determine the output uniquely, so
`insertionSort` computes the same list. -/
def sortTokens (tokens : List String) : List String := List.insertionSort tokLE tokens

/-- Python `enumerate` starting at `n`, paired as `(element, index)` — the shape of
the dict comprehension at source line 302 (the input, coming from a set, has
no duplicate tokens, so the comprehension never overwrites). -/
def enumIdxFrom (n : ℕ) : List String → List (String × ℕ)
  | [] => []
  | t :: rest => (t, n) :: enumIdxFrom (n + 1) rest

/-- Model of `build_class_map` (source lines 296-302).  The Python function collects
`str(f)` for every token of every metadata value into a `set` and sorts it.
A CPython set of strings iterates in an order that depends on the per-process
hash seed, so the model takes the set's enumeration as an explicit parameter
`tokens`: a duplicate-free list of the distinct tokens, in whatever order the
set yields them on a given run (`isTokenEnum` below says which lists are
valid enumerations for a metadata mapping). -/
def build_class_map (tokens : List String) : List (String × ℕ) :=
  enumIdxFrom 0 (sortTokens tokens)

/-- The `classes.txt` lines written by `main` (source lines 327-329): the
inverse map read back in index order is exactly the sorted token list. -/
def classesLines (tokens : List String) : List String := sortTokens tokens

/-- Says `tokens` is a valid enumeration of the token set `build_class_map`
collects from a metadata mapping: duplicate-free, containing exactly the
tokens occurring in some metadata value. -/
def isTokenEnum (md : List (String × List String)) (tokens : List String) : Prop :=
  tokens.Nodup ∧ ∀ t, t ∈ tokens ↔ ∃ p ∈ md, t ∈ p.2

/-- The `--mode` run parameter. -/
inductive Mode where
  | raw : Mode
  | yolo : Mode
  | both : Mode
deriving DecidableEq

/-- One written label line, kept structurally: either a raw line
`fdi int(xmin) int(ymin) int(xmax) int(ymax)` or a normalized line whose four
coordinates are the exact rationals after fixed-point formatting to the
configured number of decimals. -/
inductive Line where
  | raw : String → ℤ → ℤ → ℤ → ℤ → Line
  | yolo : String → ℚ → ℚ → ℚ → ℚ → Line
deriving DecidableEq

/-- Why an image was skipped (each `continue` of the per-image loop, source
lines 225-293; the accompanying `print` is the log notice). -/
inductive SkipReason where
  | parseFailed : SkipReason
  | noBoxes : SkipReason
  | noMetadata : SkipReason
  | countMismatch : SkipReason
  | sizeUnresolved : SkipReason
  | degenerateSize : SkipReason
deriving DecidableEq

/-- Outcome of the per-image loop body: a label file written with the given
lines, or a logged skip. -/
inductive ImgResult where
  | written : List Line → ImgResult
  | skipped : SkipReason → ImgResult
deriving DecidableEq

/-- Per-image input: the filename stem, the parsed annotation document
(`none` when `json.loads` raised), and the file-size oracle standing for
`find_image_file` + `Image.open` on the images directory. -/
structure ImageInput where
  id : String
  doc : Option JVal
  fileSize : Option (ℤ × ℤ)

/-- One raw-mode output line (source line 268): coordinates pass through
`float(x)` then `int(...)`, i.e. truncation toward zero. -/
def rawLine (tok : String) (b : Box) : Line :=
  .raw tok (pyInt b.xmin) (pyInt b.ymin) (pyInt b.xmax) (pyInt b.ymax)

/-- The raw-mode loop (source lines 262-268), one line per (token, box) pair
in original order. -/
def rawLines (toks : List String) (boxes : List Box) : List Line :=
  (toks.zip boxes).map (fun p => rawLine p.1 p.2)

/-- The first field of a normalized line (source lines 281-288): the class
index looked up by `str(fdi)` when remapping (defaulting to `0` when the
token is absent from the map), else the token itself. -/
def yoloFirst (remap : Bool) (classMap : List (String × ℕ)) (tok : String) : String :=
  if remap then toString ((assocFind classMap tok).getD 0) else tok

/-- One normalized output line (source lines 276-289): `to_yolo` then
fixed-point formatting of each coordinate to `d` decimals. -/
def yoloLine (remap : Bool) (d : ℕ) (classMap : List (String × ℕ)) (W H : ℤ)
    (tok : String) (b : Box) : Line :=
  let r := to_yolo b W H
  .yolo (yoloFirst remap classMap tok)
    (roundDec d r.1) (roundDec d r.2.1) (roundDec d r.2.2.1) (roundDec d r.2.2.2)

/-- The normalized-mode loop (source lines 276-289), one line per
(token, box) pair in original order. -/
def yoloLines (remap : Bool) (d : ℕ) (classMap : List (String × ℕ))
    (toks : List String) (boxes : List Box) (W H : ℤ) : List Line :=
  (toks.zip boxes).map (fun p => yoloLine remap d classMap W H p.1 p.2)

/-- The body of the per-image loop of `process_split` (source lines 225-293):
parse failure, box extraction, metadata lookup (`metadata.get(img_id, [])`
with the empty list covering both a missing entry and an explicit empty
one), the count-mismatch guard, then per mode: raw lines only; or size
resolution (skip when unresolvable), the degenerate-size guard (whose
`continue` abandons the image, discarding any raw lines already built), and
the normalized lines appended after the raw lines. -/
def processImage (md : List (String × List String)) (mode : Mode) (remap : Bool)
    (d : ℕ) (classMap : List (String × ℕ)) (inp : ImageInput) : ImgResult :=
  match inp.doc with
  | none => .skipped .parseFailed
  | some j =>
    match boxesOf j with
    | none => .skipped .noBoxes
    | some boxes =>
      let fdi_list := (assocFind md inp.id).getD []
      if fdi_list.isEmpty then .skipped .noMetadata
      else if fdi_list.length ≠ boxes.length then .skipped .countMismatch
      else
        match mode with
        | .raw => .written (rawLines fdi_list boxes)
        | .yolo =>
          match getImageSize j inp.fileSize with
          | none => .skipped .sizeUnresolved
          | some (W, H) =>
            if W = 0 ∨ H = 0 then .skipped .degenerateSize
            else .written (yoloLines remap d classMap fdi_list boxes W H)
        | .both =>
          match getImageSize j inp.fileSize with
          | none => .skipped .sizeUnresolved
          | some (W, H) =>
            if W = 0 ∨ H = 0 then .skipped .degenerateSize
            else .written (rawLines fdi_list boxes ++
              yoloLines remap d classMap fdi_list boxes W H)

/-- The per-split loop of `process_split` (source lines 224-293) over the
sorted annotation files: the label files written, as (image id, lines)
pairs in processing order.  Skipped images contribute nothing. -/
def processSplit (md : List (String × List String)) (mode : Mode) (remap : Bool)
    (d : ℕ) (classMap : List (String × ℕ)) (inputs : List ImageInput) :
    List (String × List Line) :=
  inputs.filterMap (fun inp =>
    match processImage md mode remap d classMap inp with
    | .written ls => some (inp.id, ls)
    | .skipped _ => none)

/-! Claim statements packaged as propositions, and the concrete inputs used
by witnesses and counterexamples. -/

/-- Exact inversion of `to_yolo`: decoding the normalized quadruple with
`xmin = (x_c - w/2)*W`, `xmax = (x_c + w/2)*W`, `ymin = (y_c - h/2)*H`,
`ymax = (y_c + h/2)*H` recovers the original box exactly (exact rational
arithmetic). -/
def c1Exact (b : Box) (W H : ℤ) : Prop :=
  ((to_yolo b W H).1 - (to_yolo b W H).2.2.1 / 2) * (W : ℚ) = b.xmin ∧
  ((to_yolo b W H).1 + (to_yolo b W H).2.2.1 / 2) * (W : ℚ) = b.xmax ∧
  ((to_yolo b W H).2.1 - (to_yolo b W H).2.2.2 / 2) * (H : ℚ) = b.ymin ∧
  ((to_yolo b W H).2.1 + (to_yolo b W H).2.2.2 / 2) * (H : ℚ) = b.ymax

/-- Inversion after fixed-point formatting: when the normalized values are
first rounded to `d` decimal places, decoding recovers each original
coordinate within the rounding tolerance `3/4 · 10^(-d)` scaled by the
image dimension. -/
def c1Rounded (b : Box) (W H : ℤ) (d : ℕ) : Prop :=
  |(roundDec d (to_yolo b W H).1 - roundDec d (to_yolo b W H).2.2.1 / 2) * (W : ℚ) - b.xmin| ≤
      3 / 4 * ((10 : ℚ) ^ d)⁻¹ * (W : ℚ) ∧
  |(roundDec d (to_yolo b W H).1 + roundDec d (to_yolo b W H).2.2.1 / 2) * (W : ℚ) - b.xmax| ≤
      3 / 4 * ((10 : ℚ) ^ d)⁻¹ * (W : ℚ) ∧
  |(roundDec d (to_yolo b W H).2.1 - roundDec d (to_yolo b W H).2.2.2 / 2) * (H : ℚ) - b.ymin| ≤
      3 / 4 * ((10 : ℚ) ^ d)⁻¹ * (H : ℚ) ∧
  |(roundDec d (to_yolo b W H).2.1 + roundDec d (to_yolo b W H).2.2.2 / 2) * (H : ℚ) - b.ymax| ≤
      3 / 4 * ((10 : ℚ) ^ d)⁻¹ * (H : ℚ)

/-- Per-mode output shape for a well-formed image (tokens resolved, boxes
extracted, counts equal, usable size): exactly the `N` raw lines in raw
mode, exactly the `N` normalized lines in yolo mode, their concatenation
(raw first) in both mode; `N`, `N` and `2N` lines respectively; pairs taken
from `toks.zip boxes` in original order with raw coordinates truncated to
integers. -/
def c3Concl (md : List (String × List String)) (mode : Mode) (remap : Bool) (d : ℕ)
    (cm : List (String × ℕ)) (inp : ImageInput) (toks : List String) (boxes : List Box)
    (W H : ℤ) : Prop :=
  (mode = Mode.raw → processImage md mode remap d cm inp = .written (rawLines toks boxes)) ∧
  (mode = Mode.yolo → processImage md mode remap d cm inp =
      .written (yoloLines remap d cm toks boxes W H)) ∧
  (mode = Mode.both → processImage md mode remap d cm inp =
      .written (rawLines toks boxes ++ yoloLines remap d cm toks boxes W H)) ∧
  (rawLines toks boxes).length = toks.length ∧
  (yoloLines remap d cm toks boxes W H).length = toks.length ∧
  (rawLines toks boxes ++ yoloLines remap d cm toks boxes W H).length = 2 * toks.length ∧
  rawLines toks boxes = (toks.zip boxes).map (fun p =>
    Line.raw p.1 (pyInt p.2.xmin) (pyInt p.2.ymin) (pyInt p.2.xmax) (pyInt p.2.ymax))

/-- The class map as a bijection onto `[0, N)` with the claimed total order:
every token gets an index below `N`, indices determine tokens and are all
hit, numeric tokens are ordered by value, numeric precede non-numeric, and
non-numeric tokens are ordered lexically. -/
def classMapSpec (tokens : List String) : Prop :=
  (build_class_map tokens).length = tokens.length ∧
  (∀ t ∈ tokens, ∃ i, assocFind (build_class_map tokens) t = some i ∧ i < tokens.length) ∧
  (∀ t i, assocFind (build_class_map tokens) t = some i → t ∈ tokens ∧ i < tokens.length) ∧
  (∀ t u i, assocFind (build_class_map tokens) t = some i →
      assocFind (build_class_map tokens) u = some i → t = u) ∧
  (∀ i, i < tokens.length → ∃ t ∈ tokens, assocFind (build_class_map tokens) t = some i) ∧
  (∀ a b i j, isNumTok a = true → isNumTok b = true → numVal a < numVal b →
      assocFind (build_class_map tokens) a = some i →
      assocFind (build_class_map tokens) b = some j → i < j) ∧
  (∀ a b i j, isNumTok a = true → isNumTok b = false →
      assocFind (build_class_map tokens) a = some i →
      assocFind (build_class_map tokens) b = some j → i < j) ∧
  (∀ a b i j, isNumTok a = false → isNumTok b = false → a < b →
      assocFind (build_class_map tokens) a = some i →
      assocFind (build_class_map tokens) b = some j → i < j)

/-- The annotation document of the C3 witness: the spec's scenario document
with two boxes under the `data` key. -/
def c3Doc : JVal := .obj [("data", .arr
  [.arr [.num 0, .num 0, .num 10, .num 10],
   .arr [.num 10, .num 10, .num 20, .num 20]])]

/-- The metadata of the C3 witness scenario. -/
def c3Md : List (String × List String) := [("001", ["11", "12"])]

/-- The per-image input of the C3 witness scenario: the image file resolves
to 100×100 pixels. -/
def c3Inp : ImageInput := ⟨"001", some c3Doc, some (100, 100)⟩

/-- The annotation document of the C2 counterexample: one box under `data`,
and a degenerate top-level size `width = 0, height = 100`. -/
def c2Doc : JVal := .obj [("width", .num 0), ("height", .num 100),
  ("data", .arr [.arr [.num 0, .num 0, .num 10, .num 10]])]

/-- The metadata of the C2 counterexample. -/
def c2Md : List (String × List String) := [("img1", ["11"])]

/-- The per-image input of the C2 counterexample. -/
def c2Inp : ImageInput := ⟨"img1", some c2Doc, none⟩

/-- The annotation document of the C8 counterexample: a mapping with no
extractable box list anywhere. -/
def c8Doc : JVal := .obj [("foo", .num 1)]

/-- The per-image input of the C8 counterexample (its id has no metadata
entry in the empty metadata mapping given to the orchestrator). -/
def c8Inp : ImageInput := ⟨"x", some c8Doc, none⟩

/-- The annotation document of the C4 witness: two boxes, against a
one-token metadata entry (the spec's count-mismatch scenario). -/
def c4Doc : JVal := .obj [("data", .arr
  [.arr [.num 0, .num 0, .num 10, .num 10],
   .arr [.num 10, .num 10, .num 20, .num 20]])]

/-- The metadata of the C4 witness scenario. -/
def c4Md : List (String × List String) := [("003", ["21"]), ("004", ["11"])]

/-- The mismatched per-image input of the C4 witness. -/
def c4Inp : ImageInput := ⟨"003", some c4Doc, some (100, 100)⟩

/-- A healthy neighbour image for the C4 witness: same document shape but a
single box, with a matching one-token entry. -/
def c4Good : ImageInput :=
  ⟨"004", some (.obj [("data", .arr [.arr [.num 1, .num 2, .num 3, .num 4]])]), some (100, 100)⟩

/-- The metadata of the C10 witness. -/
def c10Md : List (String × List String) := [("004", ["11"])]

/-- The unparsable-annotation input of the C10 witness (`json.loads`
raised, so no document is available). -/
def c10Inp : ImageInput := ⟨"bad", none, none⟩

/-- A healthy neighbour image for the C10 witness. -/
def c10Good : ImageInput :=
  ⟨"004", some (.obj [("data", .arr [.arr [.num 1, .num 2, .num 3, .num 4]])]), some (100, 100)⟩



/-- Fixed-point formatting moves a value by at most half a unit in the last
decimal place. -/
theorem roundDec_close (d : ℕ) (q : ℚ) : |roundDec d q - q| ≤ 1 / 2 * ((10 : ℚ) ^ d)⁻¹ := by
  have hp : (0 : ℚ) < 10 ^ d := by positivity
  have key : roundDec d q - q = (((round (q * 10 ^ d) : ℤ) : ℚ) - q * 10 ^ d) / 10 ^ d := by
    rw [roundDec]; field_simp; ring
  rw [key, abs_div, abs_of_pos hp, div_le_iff₀ hp]
  have h := abs_sub_round (q * 10 ^ d)
  rw [abs_sub_comm] at h
  calc |((round (q * 10 ^ d) : ℤ) : ℚ) - q * 10 ^ d| ≤ 1 / 2 := h
    _ = 1 / 2 * ((10 : ℚ) ^ d)⁻¹ * 10 ^ d := by field_simp

/-- Perturbing the center and extent by at most `ε` each moves the decoded
lower edge by at most `3/2 · ε` per unit of image dimension. -/
theorem recover_lo (c w c' w' Wq e : ℚ) (hW : 0 ≤ Wq) (hc : |c' - c| ≤ e) (hw : |w' - w| ≤ e) :
    |(c' - w' / 2) * Wq - (c - w / 2) * Wq| ≤ 3 / 2 * e * Wq := by
  have key : (c' - w' / 2) * Wq - (c - w / 2) * Wq = ((c' - c) - (w' - w) / 2) * Wq := by ring
  rw [key, abs_mul, abs_of_nonneg hW]
  have h1 : |(c' - c) - (w' - w) / 2| ≤ |c' - c| + |(w' - w) / 2| := by
    calc |(c' - c) - (w' - w) / 2| = |(c' - c) + -((w' - w) / 2)| := by ring_nf
      _ ≤ |c' - c| + |-((w' - w) / 2)| := abs_add _ _
      _ = |c' - c| + |(w' - w) / 2| := by rw [abs_neg]
  have h2 : |(w' - w) / 2| = |w' - w| / 2 := by
    rw [abs_div]; norm_num
  have h3 : |(c' - c) - (w' - w) / 2| ≤ 3 / 2 * e := by
    rw [h2] at h1; linarith
  nlinarith [abs_nonneg ((c' - c) - (w' - w) / 2)]

/-- Perturbing the center and extent by at most `ε` each moves the decoded
upper edge by at most `3/2 · ε` per unit of image dimension. -/
theorem recover_hi (c w c' w' Wq e : ℚ) (hW : 0 ≤ Wq) (hc : |c' - c| ≤ e) (hw : |w' - w| ≤ e) :
    |(c' + w' / 2) * Wq - (c + w / 2) * Wq| ≤ 3 / 2 * e * Wq := by
  have key : (c' + w' / 2) * Wq - (c + w / 2) * Wq = ((c' - c) + (w' - w) / 2) * Wq := by ring
  rw [key, abs_mul, abs_of_nonneg hW]
  have h1 : |(c' - c) + (w' - w) / 2| ≤ |c' - c| + |(w' - w) / 2| := abs_add _ _
  have h2 : |(w' - w) / 2| = |w' - w| / 2 := by
    rw [abs_div]; norm_num
  have h3 : |(c' - c) + (w' - w) / 2| ≤ 3 / 2 * e := by
    rw [h2] at h1; linarith
  nlinarith [abs_nonneg ((c' - c) + (w' - w) / 2)]

/-- C1: for every bounding box and positive image size, inverting the
normalization recovers the original box exactly under exact rational
arithmetic, and within `3/4·10^(-d)` of a dimension when the normalized
values are first formatted to `d` decimals. -/
theorem c1_to_yolo_inverts (b : Box) (W H : ℤ) (d : ℕ) (hW : 0 < W) (hH : 0 < H) :
    c1Exact b W H ∧ c1Rounded b W H d := by
  have hWq : (0 : ℚ) < (W : ℚ) := by exact_mod_cast hW
  have hHq : (0 : ℚ) < (H : ℚ) := by exact_mod_cast hH
  have hW0 : (W : ℚ) ≠ 0 := ne_of_gt hWq
  have hH0 : (H : ℚ) ≠ 0 := ne_of_gt hHq
  have he : c1Exact b W H := by
    refine ⟨?_, ?_, ?_, ?_⟩ <;> (simp only [to_yolo]; field_simp; ring)
  refine ⟨he, ?_, ?_, ?_, ?_⟩
  · calc |(roundDec d (to_yolo b W H).1 - roundDec d (to_yolo b W H).2.2.1 / 2) * (W : ℚ) - b.xmin|
        = |(roundDec d (to_yolo b W H).1 - roundDec d (to_yolo b W H).2.2.1 / 2) * (W : ℚ) -
            ((to_yolo b W H).1 - (to_yolo b W H).2.2.1 / 2) * (W : ℚ)| := by rw [he.1]
      _ ≤ 3 / 2 * (1 / 2 * ((10 : ℚ) ^ d)⁻¹) * (W : ℚ) :=
          recover_lo _ _ _ _ _ _ (le_of_lt hWq) (roundDec_close d _) (roundDec_close d _)
      _ = 3 / 4 * ((10 : ℚ) ^ d)⁻¹ * (W : ℚ) := by ring
  · calc |(roundDec d (to_yolo b W H).1 + roundDec d (to_yolo b W H).2.2.1 / 2) * (W : ℚ) - b.xmax|
        = |(roundDec d (to_yolo b W H).1 + roundDec d (to_yolo b W H).2.2.1 / 2) * (W : ℚ) -
            ((to_yolo b W H).1 + (to_yolo b W H).2.2.1 / 2) * (W : ℚ)| := by rw [he.2.1]
      _ ≤ 3 / 2 * (1 / 2 * ((10 : ℚ) ^ d)⁻¹) * (W : ℚ) :=
          recover_hi _ _ _ _ _ _ (le_of_lt hWq) (roundDec_close d _) (roundDec_close d _)
      _ = 3 / 4 * ((10 : ℚ) ^ d)⁻¹ * (W : ℚ) := by ring
  · calc |(roundDec d (to_yolo b W H).2.1 - roundDec d (to_yolo b W H).2.2.2 / 2) * (H : ℚ) - b.ymin|
        = |(roundDec d (to_yolo b W H).2.1 - roundDec d (to_yolo b W H).2.2.2 / 2) * (H : ℚ) -
            ((to_yolo b W H).2.1 - (to_yolo b W H).2.2.2 / 2) * (H : ℚ)| := by rw [he.2.2.1]
      _ ≤ 3 / 2 * (1 / 2 * ((10 : ℚ) ^ d)⁻¹) * (H : ℚ) :=
          recover_lo _ _ _ _ _ _ (le_of_lt hHq) (roundDec_close d _) (roundDec_close d _)
      _ = 3 / 4 * ((10 : ℚ) ^ d)⁻¹ * (H : ℚ) := by ring
  · calc |(roundDec d (to_yolo b W H).2.1 + roundDec d (to_yolo b W H).2.2.2 / 2) * (H : ℚ) - b.ymax|
        = |(roundDec d (to_yolo b W H).2.1 + roundDec d (to_yolo b W H).2.2.2 / 2) * (H : ℚ) -
            ((to_yolo b W H).2.1 + (to_yolo b W H).2.2.2 / 2) * (H : ℚ)| := by rw [he.2.2.2]
      _ ≤ 3 / 2 * (1 / 2 * ((10 : ℚ) ^ d)⁻¹) * (H : ℚ) :=
          recover_hi _ _ _ _ _ _ (le_of_lt hHq) (roundDec_close d _) (roundDec_close d _)
      _ = 3 / 4 * ((10 : ℚ) ^ d)⁻¹ * (H : ℚ) := by ring

/-- Witness for C1 at the box (0,0,10,10) on a 100×100 image with 6
decimals. -/
theorem c1_witness :
    (0 : ℤ) < 100 ∧ (0 : ℤ) < 100 ∧
      (c1Exact ⟨0, 0, 10, 10⟩ 100 100 ∧ c1Rounded ⟨0, 0, 10, 10⟩ 100 100 6) :=
  ⟨by decide, by decide, c1_to_yolo_inverts ⟨0, 0, 10, 10⟩ 100 100 6 (by decide) (by decide)⟩



theorem enumIdxFrom_length (n : ℕ) (l : List String) : (enumIdxFrom n l).length = l.length := by
  induction l generalizing n with
  | nil => rfl
  | cons t rest ih => simp [enumIdxFrom, ih]

theorem assocFind_enumIdxFrom_some :
    ∀ (l : List String) (n i : ℕ) (t : String), l.Nodup → l[i]? = some t →
      assocFind (enumIdxFrom n l) t = some (n + i)
  | [], n, i, t, _, h => by simp at h
  | a :: rest, n, i, t, hnd, h => by
    cases i with
    | zero =>
      simp at h
      subst h
      simp [enumIdxFrom, assocFind]
    | succ i' =>
      have h' : rest[i']? = some t := by simpa using h
      have hmem : t ∈ rest := List.getElem?_mem h'
      have hat : a ≠ t := by
        intro he
        exact (List.nodup_cons.mp hnd).1 (he ▸ hmem)
      have ih := assocFind_enumIdxFrom_some rest (n + 1) i' t (List.nodup_cons.mp hnd).2 h'
      simp only [enumIdxFrom, assocFind, if_neg hat, ih]
      congr 1
      omega

theorem assocFind_enumIdxFrom_inv :
    ∀ (l : List String) (n j : ℕ) (t : String),
      assocFind (enumIdxFrom n l) t = some j → ∃ i, j = n + i ∧ l[i]? = some t
  | [], n, j, t, h => by simp [enumIdxFrom, assocFind] at h
  | a :: rest, n, j, t, h => by
    by_cases hat : a = t
    · refine ⟨0, ?_, ?_⟩
      · simp [enumIdxFrom, assocFind, hat] at h
        omega
      · simpa using hat
    · simp only [enumIdxFrom, assocFind, if_neg hat] at h
      obtain ⟨i, hi, hget⟩ := assocFind_enumIdxFrom_inv rest (n + 1) j t h
      exact ⟨i + 1, by omega, by simpa using hget⟩

theorem assocFind_mem {α : Type} {m : List (String × α)} {k : String} {v : α}
    (h : assocFind m k = some v) : (k, v) ∈ m := by
  induction m with
  | nil => simp [assocFind] at h
  | cons p rest ih =>
    obtain ⟨k', v'⟩ := p
    by_cases hk : k' = k
    · subst hk
      simp [assocFind] at h
      subst h
      exact List.mem_cons_self _ _
    · simp only [assocFind, if_neg hk] at h
      exact List.mem_cons_of_mem _ (ih h)

theorem sortTokens_sorted (tokens : List String) : (sortTokens tokens).Sorted tokLE :=
  List.sorted_insertionSort tokLE tokens

theorem sortTokens_perm (tokens : List String) : List.Perm (sortTokens tokens) tokens :=
  List.perm_insertionSort tokLE tokens

theorem tokLE_num_num {a b : String} (ha : isNumTok a = true) (hb : isNumTok b = true) :
    tokLE a b ↔ numVal a ≤ numVal b := by
  simp [tokLE, tokLEb, ha, hb]

theorem tokLE_nonnum_num {a b : String} (ha : isNumTok a = false) (hb : isNumTok b = true) :
    ¬ tokLE a b := by
  simp [tokLE, tokLEb, ha, hb]

theorem tokLE_nonnum_nonnum {a b : String} (ha : isNumTok a = false) (hb : isNumTok b = false) :
    tokLE a b ↔ a ≤ b := by
  simp [tokLE, tokLEb, ha, hb]


theorem build_class_map_fwd {tokens : List String} (hnd : tokens.Nodup) {i : ℕ} {t : String}
    (h : (sortTokens tokens)[i]? = some t) :
    assocFind (build_class_map tokens) t = some i := by
  have hndL : (sortTokens tokens).Nodup := (sortTokens_perm tokens).nodup_iff.mpr hnd
  simpa using assocFind_enumIdxFrom_some (sortTokens tokens) 0 i t hndL h

theorem build_class_map_inv {tokens : List String} {i : ℕ} {t : String}
    (h : assocFind (build_class_map tokens) t = some i) :
    (sortTokens tokens)[i]? = some t := by
  obtain ⟨i', hi, hget⟩ := assocFind_enumIdxFrom_inv (sortTokens tokens) 0 i t h
  simpa [show i' = i by omega] using hget

theorem class_map_lt_of {tokens : List String} {a b : String} {i j : ℕ}
    (hne : a ≠ b) (hnle : ¬ tokLE b a)
    (ha : assocFind (build_class_map tokens) a = some i)
    (hb : assocFind (build_class_map tokens) b = some j) : i < j := by
  have hga := build_class_map_inv ha
  have hgb := build_class_map_inv hb
  obtain ⟨hia, hgeta⟩ := List.getElem?_eq_some.mp hga
  obtain ⟨hib, hgetb⟩ := List.getElem?_eq_some.mp hgb
  have hij : i ≠ j := by
    intro he
    subst he
    exact hne (by rw [← hgeta, ← hgetb])
  rcases Nat.lt_or_ge i j with h | h
  · exact h
  · exfalso
    have hji : j < i := by omega
    have := (List.pairwise_iff_getElem.mp (sortTokens_sorted tokens)) j i hib hia hji
    rw [hgetb, hgeta] at this
    exact hnle this

/-- C5: the class map is a bijection onto `[0, N)` ordered with numeric
tokens ascending before non-numeric tokens ascending lexically; in
particular the token set 11, 21, 2 is persisted as the lines 2, 11, 21 with
indices 0, 1, 2. -/
theorem c5_class_map (tokens : List String) (hnd : tokens.Nodup) :
    classMapSpec tokens ∧
      build_class_map ["11", "21", "2"] = [("2", 0), ("11", 1), ("21", 2)] ∧
      classesLines ["11", "21", "2"] = ["2", "11", "21"] := by
  have hperm := sortTokens_perm tokens
  have hndL : (sortTokens tokens).Nodup := hperm.nodup_iff.mpr hnd
  have hlenL : (sortTokens tokens).length = tokens.length := hperm.length_eq
  refine ⟨⟨?_, ?_, ?_, ?_, ?_, ?_, ?_, ?_⟩, ?_, ?_⟩
  · rw [build_class_map, enumIdxFrom_length, hlenL]
  · intro t ht
    have htL : t ∈ sortTokens tokens := hperm.mem_iff.mpr ht
    obtain ⟨i, hi, hget⟩ := List.getElem_of_mem htL
    refine ⟨i, build_class_map_fwd hnd ?_, by omega⟩
    exact List.getElem?_eq_some.mpr ⟨hi, hget⟩
  · intro t i h
    have hget := build_class_map_inv h
    obtain ⟨hi, _⟩ := List.getElem?_eq_some.mp hget
    exact ⟨hperm.mem_iff.mp (List.getElem?_mem hget), by omega⟩
  · intro t u i ht hu
    have h1 := build_class_map_inv ht
    have h2 := build_class_map_inv hu
    rw [h1] at h2
    exact Option.some_inj.mp h2
  · intro i hi
    have hi' : i < (sortTokens tokens).length := by omega
    refine ⟨(sortTokens tokens)[i], hperm.mem_iff.mp (List.getElem_mem hi'), ?_⟩
    exact build_class_map_fwd hnd (List.getElem?_eq_some.mpr ⟨hi', rfl⟩)
  · intro a b i j ha hb hab hia hjb
    refine class_map_lt_of ?_ ?_ hia hjb
    · intro he
      rw [he] at hab
      omega
    · rw [tokLE_num_num hb ha]
      omega
  · intro a b i j ha hb hia hjb
    refine class_map_lt_of ?_ ?_ hia hjb
    · intro he
      rw [he] at ha
      rw [ha] at hb
      simp at hb
    · exact tokLE_nonnum_num hb ha
  · intro a b i j ha hb hab hia hjb
    refine class_map_lt_of (ne_of_lt hab) ?_ hia hjb
    rw [tokLE_nonnum_nonnum hb ha]
    exact not_le.mpr hab
  · with_unfolding_all decide
  · with_unfolding_all decide

/-- Witness for C5 at the token set of the spec scenario. -/
theorem c5_witness :
    (["11", "21", "2"] : List String).Nodup ∧
      (classMapSpec ["11", "21", "2"] ∧
        build_class_map ["11", "21", "2"] = [("2", 0), ("11", 1), ("21", 2)] ∧
        classesLines ["11", "21", "2"] = ["2", "11", "21"]) :=
  ⟨by with_unfolding_all decide, c5_class_map ["11", "21", "2"] (by with_unfolding_all decide)⟩


/-- C6 (code bug): the model of `build_class_map` at the two enumerations a
CPython set can yield across runs for the token set containing "01" and "1"
(both sort keys tie at `(0, 1)`): the enumerations are permutations of each
other, yet the token→index assignments differ, so the assignment is not a
function of the metadata alone. -/
theorem c6_tie_order_dependent :
    List.Perm (["01", "1"] : List String) ["1", "01"] ∧
    build_class_map ["01", "1"] = [("01", 0), ("1", 1)] ∧
    build_class_map ["1", "01"] = [("1", 0), ("01", 1)] ∧
    build_class_map ["01", "1"] ≠ build_class_map ["1", "01"] := by
  refine ⟨?_, ?_, ?_, ?_⟩ <;> with_unfolding_all decide

/-- C9: when the class map is built from the same metadata that drives
writing, the lookup of any token of any metadata entry succeeds, so the
default-to-class-0 fallback is unreachable. -/
theorem c9_remap_lookup_total (md : List (String × List String)) (tokens : List String)
    (img : String) (toks : List String) (t : String)
    (henum : isTokenEnum md tokens) (hmd : assocFind md img = some toks) (ht : t ∈ toks) :
    (assocFind (build_class_map tokens) t).isSome = true := by
  obtain ⟨hnd, hmem⟩ := henum
  have htok : t ∈ tokens := (hmem t).mpr ⟨(img, toks), assocFind_mem hmd, ht⟩
  have htL : t ∈ sortTokens tokens := (sortTokens_perm tokens).mem_iff.mpr htok
  obtain ⟨i, hi, hget⟩ := List.getElem_of_mem htL
  rw [build_class_map_fwd hnd (List.getElem?_eq_some.mpr ⟨hi, hget⟩)]
  rfl

/-- Witness for C9 on a one-image metadata mapping. -/
theorem c9_witness :
    isTokenEnum [("001", ["11", "12"])] ["11", "12"] ∧
    assocFind [("001", ["11", "12"])] "001" = some ["11", "12"] ∧
    ("11" : String) ∈ ["11", "12"] ∧
    (assocFind (build_class_map ["11", "12"]) "11").isSome = true := by
  have he : isTokenEnum [("001", ["11", "12"])] ["11", "12"] :=
    ⟨by with_unfolding_all decide, by intro t; simp⟩
  exact ⟨he, by with_unfolding_all decide, by decide,
    c9_remap_lookup_total _ _ "001" ["11", "12"] "11" he (by with_unfolding_all decide) (by decide)⟩

theorem processSplit_append_skip (md : List (String × List String)) (mode : Mode)
    (remap : Bool) (d : ℕ) (cm : List (String × ℕ)) (pre post : List ImageInput)
    (inp : ImageInput) (r : SkipReason)
    (h : processImage md mode remap d cm inp = .skipped r) :
    processSplit md mode remap d cm (pre ++ inp :: post) =
      processSplit md mode remap d cm pre ++ processSplit md mode remap d cm post := by
  simp [processSplit, List.filterMap_append, List.filterMap_cons, h]

/-- C10: an annotation file that fails JSON parsing makes the orchestrator
skip exactly that image — no label file for it, parse failure reported —
and the rest of the split is processed exactly as it would be without it. -/
theorem c10_parse_failure_skips (md : List (String × List String)) (mode : Mode)
    (remap : Bool) (d : ℕ) (cm : List (String × ℕ)) (inp : ImageInput)
    (pre post : List ImageInput) (hdoc : inp.doc = none) :
    processImage md mode remap d cm inp = .skipped .parseFailed ∧
    processSplit md mode remap d cm (pre ++ inp :: post) =
      processSplit md mode remap d cm pre ++ processSplit md mode remap d cm post := by
  have h1 : processImage md mode remap d cm inp = .skipped .parseFailed := by
    simp [processImage, hdoc]
  exact ⟨h1, processSplit_append_skip _ _ _ _ _ _ _ _ _ h1⟩


/-- Witness for C10: one unparsable annotation between two healthy ones. -/
theorem c10_witness :
    c10Inp.doc = none ∧
    (processImage c10Md Mode.both false 6 [] c10Inp = .skipped .parseFailed ∧
      processSplit c10Md Mode.both false 6 [] ([c10Good] ++ c10Inp :: [c10Good]) =
        processSplit c10Md Mode.both false 6 [] [c10Good] ++
          processSplit c10Md Mode.both false 6 [] [c10Good]) :=
  ⟨rfl, c10_parse_failure_skips _ _ _ _ _ _ _ _ rfl⟩

/-- C4: a token/box count mismatch skips the image — no label file, the
mismatch reason logged — and leaves the rest of the split untouched. -/
theorem c4_count_mismatch (md : List (String × List String)) (mode : Mode) (remap : Bool)
    (d : ℕ) (cm : List (String × ℕ)) (inp : ImageInput) (j : JVal) (boxes : List Box)
    (toks : List String) (pre post : List ImageInput)
    (hdoc : inp.doc = some j) (hbox : boxesOf j = some boxes)
    (hmd : assocFind md inp.id = some toks) (hne : toks ≠ [])
    (hmm : toks.length ≠ boxes.length) :
    processImage md mode remap d cm inp = .skipped .countMismatch ∧
    processSplit md mode remap d cm (pre ++ inp :: post) =
      processSplit md mode remap d cm pre ++ processSplit md mode remap d cm post := by
  have hne' : toks.isEmpty = false := by
    cases toks with
    | nil => exact absurd rfl hne
    | cons a l => rfl
  have h1 : processImage md mode remap d cm inp = .skipped .countMismatch := by
    simp [processImage, hdoc, hbox, hmd, hne', hmm]
  exact ⟨h1, processSplit_append_skip _ _ _ _ _ _ _ _ _ h1⟩

/-- Witness for C4 on the spec scenario (1 token vs 2 boxes) flanked by
healthy images, plus the concrete split output showing the neighbours
still succeed. -/
theorem c4_witness :
    c4Inp.doc = some c4Doc ∧
    boxesOf c4Doc = some [⟨0, 0, 10, 10⟩, ⟨10, 10, 20, 20⟩] ∧
    assocFind c4Md c4Inp.id = some ["21"] ∧
    (["21"] : List String) ≠ [] ∧
    (["21"] : List String).length ≠ ([⟨0, 0, 10, 10⟩, ⟨10, 10, 20, 20⟩] : List Box).length ∧
    (processImage c4Md Mode.raw false 6 [] c4Inp = .skipped .countMismatch ∧
      processSplit c4Md Mode.raw false 6 [] ([c4Good] ++ c4Inp :: [c4Good]) =
        processSplit c4Md Mode.raw false 6 [] [c4Good] ++
          processSplit c4Md Mode.raw false 6 [] [c4Good]) ∧
    processSplit c4Md Mode.raw false 6 [] [c4Good, c4Inp, c4Good] =
      [("004", [.raw "11" 1 2 3 4]), ("004", [.raw "11" 1 2 3 4])] :=
  ⟨rfl, by with_unfolding_all decide, by with_unfolding_all decide, by decide,
    by with_unfolding_all decide,
    c4_count_mismatch c4Md Mode.raw false 6 [] c4Inp c4Doc
      [⟨0, 0, 10, 10⟩, ⟨10, 10, 20, 20⟩] ["21"] [c4Good] [c4Good] rfl
      (by with_unfolding_all decide) (by with_unfolding_all decide) (by decide)
      (by with_unfolding_all decide),
    by with_unfolding_all decide⟩

/-- C8 counterexample: an image with no extractable box list and no metadata
entry is skipped with the no-box-list reason, not the metadata-missing
reason the claim predicts. -/
theorem c8_counterexample :
    processImage [] Mode.raw false 6 [] c8Inp = .skipped .noBoxes ∧
    processImage [] Mode.raw false 6 [] c8Inp ≠ .skipped .noMetadata := by
  constructor <;> with_unfolding_all decide

/-- C8 amended: the orchestrator extracts boxes before resolving metadata:
a document with no boxes is skipped with the no-box-list reason (whatever
the metadata holds), and the metadata-missing reason is reported exactly
when boxes were extracted and the entry is missing or empty. -/
theorem c8_boxes_before_metadata (md : List (String × List String)) (mode : Mode)
    (remap : Bool) (d : ℕ) (cm : List (String × ℕ)) (inp : ImageInput) (j : JVal)
    (hdoc : inp.doc = some j) :
    (boxesOf j = none → processImage md mode remap d cm inp = .skipped .noBoxes) ∧
    (∀ boxes, boxesOf j = some boxes → (assocFind md inp.id).getD [] = [] →
      processImage md mode remap d cm inp = .skipped .noMetadata) := by
  constructor
  · intro hb
    simp [processImage, hdoc, hb]
  · intro boxes hb hmd
    simp [processImage, hdoc, hb, hmd]

/-- Witness for C8 amended at the counterexample input. -/
theorem c8_witness :
    c8Inp.doc = some c8Doc ∧
    ((boxesOf c8Doc = none → processImage [] Mode.raw false 6 [] c8Inp = .skipped .noBoxes) ∧
      (∀ boxes, boxesOf c8Doc = some boxes →
          (assocFind ([] : List (String × List String)) c8Inp.id).getD [] = [] →
        processImage [] Mode.raw false 6 [] c8Inp = .skipped .noMetadata)) :=
  ⟨rfl, c8_boxes_before_metadata [] Mode.raw false 6 [] c8Inp c8Doc rfl⟩


/-- C2 counterexample: mode `both`, one matched (token, box) pair, and a
degenerate resolved size (`W = 0`): the orchestrator skips the whole image
— no label file containing only the raw lines is written. -/
theorem c2_counterexample :
    processImage c2Md Mode.both false 6 [] c2Inp = .skipped .degenerateSize ∧
    processImage c2Md Mode.both false 6 [] c2Inp ≠
      .written (rawLines ["11"] [⟨0, 0, 10, 10⟩]) := by
  constructor <;> with_unfolding_all decide

/-- C2 amended: in `both` mode, an unresolvable or degenerate image size
skips the image entirely — the raw lines already built are discarded and no
label file is written for that image. -/
theorem c2_no_partial_file (md : List (String × List String)) (remap : Bool) (d : ℕ)
    (cm : List (String × ℕ)) (inp : ImageInput) (j : JVal) (boxes : List Box)
    (toks : List String)
    (hdoc : inp.doc = some j) (hbox : boxesOf j = some boxes)
    (hmd : assocFind md inp.id = some toks) (hne : toks ≠ [])
    (hlen : toks.length = boxes.length) :
    (getImageSize j inp.fileSize = none →
      processImage md Mode.both remap d cm inp = .skipped .sizeUnresolved) ∧
    (∀ W H, getImageSize j inp.fileSize = some (W, H) → W = 0 ∨ H = 0 →
      processImage md Mode.both remap d cm inp = .skipped .degenerateSize) := by
  have hne' : toks.isEmpty = false := by
    cases toks with
    | nil => exact absurd rfl hne
    | cons a l => rfl
  have hlen' : ¬ toks.length ≠ boxes.length := fun h => h hlen
  constructor
  · intro hs
    simp [processImage, hdoc, hbox, hmd, hne', hlen', hs]
  · intro W H hs hdeg
    simp [processImage, hdoc, hbox, hmd, hne', hlen', hs, hdeg]

/-- Witness for C2 amended at the counterexample input. -/
theorem c2_witness :
    c2Inp.doc = some c2Doc ∧
    boxesOf c2Doc = some [⟨0, 0, 10, 10⟩] ∧
    assocFind c2Md c2Inp.id = some ["11"] ∧
    (["11"] : List String) ≠ [] ∧
    (["11"] : List String).length = ([⟨0, 0, 10, 10⟩] : List Box).length ∧
    ((getImageSize c2Doc c2Inp.fileSize = none →
        processImage c2Md Mode.both false 6 [] c2Inp = .skipped .sizeUnresolved) ∧
      (∀ W H, getImageSize c2Doc c2Inp.fileSize = some (W, H) → W = 0 ∨ H = 0 →
        processImage c2Md Mode.both false 6 [] c2Inp = .skipped .degenerateSize)) :=
  ⟨rfl, by with_unfolding_all decide, by with_unfolding_all decide, by decide, by decide,
    c2_no_partial_file c2Md false 6 [] c2Inp c2Doc [⟨0, 0, 10, 10⟩] ["11"] rfl
      (by with_unfolding_all decide) (by with_unfolding_all decide) (by decide) (by decide)⟩

/-- C3: a well-formed image (tokens resolved, boxes extracted, equal counts,
usable size when needed) yields exactly `N` raw lines in raw mode, `N`
normalized lines in yolo mode, and the `2N`-line concatenation with all raw
lines first in both mode, pairs in original order with raw coordinates
truncated to integers. -/
theorem c3_line_counts (md : List (String × List String)) (mode : Mode) (remap : Bool)
    (d : ℕ) (cm : List (String × ℕ)) (inp : ImageInput) (j : JVal) (boxes : List Box)
    (toks : List String) (W H : ℤ)
    (hdoc : inp.doc = some j) (hbox : boxesOf j = some boxes)
    (hmd : assocFind md inp.id = some toks) (hne : toks ≠ [])
    (hlen : toks.length = boxes.length)
    (hsz : mode ≠ Mode.raw → getImageSize j inp.fileSize = some (W, H) ∧ W ≠ 0 ∧ H ≠ 0) :
    c3Concl md mode remap d cm inp toks boxes W H := by
  have hne' : toks.isEmpty = false := by
    cases toks with
    | nil => exact absurd rfl hne
    | cons a l => rfl
  have hlen' : ¬ toks.length ≠ boxes.length := fun h => h hlen
  refine ⟨?_, ?_, ?_, ?_, ?_, ?_, rfl⟩
  · intro hm
    subst hm
    simp [processImage, hdoc, hbox, hmd, hne', hlen']
  · intro hm
    subst hm
    obtain ⟨hs, hW, hH⟩ := hsz (by simp)
    simp [processImage, hdoc, hbox, hmd, hne', hlen', hs, hW, hH]
  · intro hm
    subst hm
    obtain ⟨hs, hW, hH⟩ := hsz (by simp)
    simp [processImage, hdoc, hbox, hmd, hne', hlen', hs, hW, hH]
  · simp [rawLines, List.length_zip]
    omega
  · simp [yoloLines, List.length_zip]
    omega
  · simp [rawLines, yoloLines, List.length_zip]
    omega

/-- Witness for C3 on the spec scenario (two pairs, 100×100, mode `both`),
including the exact four output lines. -/
theorem c3_witness :
    c3Inp.doc = some c3Doc ∧
    boxesOf c3Doc = some [⟨0, 0, 10, 10⟩, ⟨10, 10, 20, 20⟩] ∧
    assocFind c3Md c3Inp.id = some ["11", "12"] ∧
    (["11", "12"] : List String) ≠ [] ∧
    (["11", "12"] : List String).length = ([⟨0, 0, 10, 10⟩, ⟨10, 10, 20, 20⟩] : List Box).length ∧
    (Mode.both ≠ Mode.raw →
      getImageSize c3Doc c3Inp.fileSize = some (100, 100) ∧ (100 : ℤ) ≠ 0 ∧ (100 : ℤ) ≠ 0) ∧
    c3Concl c3Md Mode.both false 6 [] c3Inp ["11", "12"]
      [⟨0, 0, 10, 10⟩, ⟨10, 10, 20, 20⟩] 100 100 ∧
    processImage c3Md Mode.both false 6 [] c3Inp = .written
      [.raw "11" 0 0 10 10, .raw "12" 10 10 20 20,
       .yolo "11" (1/20) (1/20) (1/10) (1/10),
       .yolo "12" (3/20) (3/20) (1/10) (1/10)] :=
  ⟨rfl, by with_unfolding_all decide, by with_unfolding_all decide, by decide,
    by with_unfolding_all decide,
    fun _ => ⟨by with_unfolding_all decide, by decide, by decide⟩,
    c3_line_counts c3Md Mode.both false 6 [] c3Inp c3Doc
      [⟨0, 0, 10, 10⟩, ⟨10, 10, 20, 20⟩] ["11", "12"] 100 100 rfl
      (by with_unfolding_all decide) (by with_unfolding_all decide) (by decide)
      (by with_unfolding_all decide)
      (fun _ => ⟨by with_unfolding_all decide, by decide, by decide⟩),
    by with_unfolding_all decide⟩

/-- C7 counterexample: on the delimited-text path an identifier field
`"007"` is kept verbatim as the key `"007"`; no normalized key `"7"`
exists. -/
theorem c7_counterexample :
    assocFind (parse_txt ["id\tc1\tc2\tfdi", "007\ta\tb\t11 12"]) "7" = none ∧
    assocFind (parse_txt ["id\tc1\tc2\tfdi", "007\ta\tb\t11 12"]) "007" = some ["11", "12"] := by
  constructor <;> with_unfolding_all decide

/-- C7 amended: only the spreadsheet path normalizes identifiers, and only
numeric-typed cells: an int or float cell becomes its canonical integer
string ("7.0" → "7"), while string-typed cells ("007") and all
delimited-text identifiers are used verbatim (stripped only). -/
theorem c7_id_normalization :
    (∀ s : String, excelRowId (Cell.cStr s) = some s) ∧
    (∀ n : ℤ, excelRowId (Cell.cInt n) = some (toString n)) ∧
    (∀ q : ℚ, excelRowId (Cell.cFloat q) = some (toString (pyInt q))) ∧
    excelRowId (Cell.cFloat 7) = some "7" ∧
    assocFind (parseExcelRows [[Cell.cFloat 7, Cell.cStr "11 12"]] 0 1) "7" = some ["11", "12"] ∧
    assocFind (parseExcelRows [[Cell.cStr "007", Cell.cStr "11 12"]] 0 1) "007" =
      some ["11", "12"] ∧
    assocFind (parse_txt ["id\tc1\tc2\tfdi", "007\ta\tb\t11 12"]) "007" = some ["11", "12"] :=
  ⟨fun s => rfl, fun n => rfl, fun q => rfl,
    by with_unfolding_all decide, by with_unfolding_all decide,
    by with_unfolding_all decide, by with_unfolding_all decide⟩

end ToothLabels
